import Mathlib

/-
Verification of the crypto dashboard and its prediction services.

Shallow embedding of:
  src/Streamlit_app.py  (dashboard: predict client, candle aggregation, cache policy)
  src/api_btc.py        (Bitcoin service)
  src/api_xrp.py        (XRP service)
  src/api_solana.py     (Solana service)

Python floats are modelled as exact rationals that lie on the IEEE-754
binary64 grid; `toDouble` performs round-to-nearest, ties-to-even.
JSON values are modelled by the inductive `JsonVal`; a Python dict value
of None and an absent key are identified (both read back as `.null`,
exactly as `dict.get` does).
-/

/-- A JSON value as decoded by `response.json()` (also used for the Python
values the dashboard code manipulates). -/
inductive JsonVal where
  | null : JsonVal
  | num (q : ℚ) : JsonVal
  | str (s : String) : JsonVal
  | bool (b : Bool) : JsonVal
  | arr (xs : List JsonVal) : JsonVal
  | obj (fields : List (String × JsonVal)) : JsonVal

/-- `dict.get(key)`: first binding of `key`, `.null` when absent (Python
returns None both for an absent key and for a stored null). -/
def jget : List (String × JsonVal) → String → JsonVal
  | [], _ => .null
  | (k, v) :: rest, key => if k = key then v else jget rest key

/-- `key in dict`: key membership. -/
def hasKey : List (String × JsonVal) → String → Bool
  | [], _ => false
  | (k, _) :: rest, key => if k = key then true else hasKey rest key

/-- Python truthiness of a JSON-decoded value. -/
def truthy : JsonVal → Bool
  | .null => false
  | .num q => decide (q ≠ 0)
  | .str s => decide (s ≠ "")
  | .bool b => b
  | .arr xs => !xs.isEmpty
  | .obj fs => !fs.isEmpty

/-- `a or b` in Python: `a` when truthy, else `b`. -/
def pyOr (a b : JsonVal) : JsonVal := if truthy a then a else b

/-- `v is None` for a JSON-decoded value. -/
def isNull : JsonVal → Bool
  | .null => true
  | _ => false

/-- Whether a value is a Python number (int or float). -/
def isNum : JsonVal → Bool
  | .num _ => true
  | _ => false

/-- Number-or-string classification used by the dashboard caller. -/
def isNumOrStr : JsonVal → Bool
  | .num _ => true
  | .str _ => true
  | _ => false

/-- A value that is either absent/None or a number. -/
def isNullOrNum : JsonVal → Bool
  | .null => true
  | .num _ => true
  | _ => false

/-- Field lookup on a JSON value; `.null` when the value is not an object. -/
def getField (v : JsonVal) (key : String) : JsonVal :=
  match v with
  | .obj fields => jget fields key
  | _ => .null

/-- Abstract decimal rendering of a numeric value (stands for the CPython
numeral formatting, whose exact digit strings no claim depends on). -/
def ratStr (q : ℚ) : String := toString q

mutual
/-- Model of Python `repr` on JSON-decoded values. -/
def pyRepr : JsonVal → String
  | .null => "None"
  | .bool true => "True"
  | .bool false => "False"
  | .num q => ratStr q
  | .str s => "\x27" ++ s ++ "\x27"
  | .arr xs => "[" ++ pyReprList xs ++ "]"
  | .obj fs => "\x7b" ++ pyReprFields fs ++ "\x7d"
def pyReprList : List JsonVal → String
  | [] => ""
  | [v] => pyRepr v
  | v :: vs => pyRepr v ++ ", " ++ pyReprList vs
def pyReprFields : List (String × JsonVal) → String
  | [] => ""
  | [(k, v)] => "\x27" ++ k ++ "\x27: " ++ pyRepr v
  | (k, v) :: fs => "\x27" ++ k ++ "\x27: " ++ pyRepr v ++ ", " ++ pyReprFields fs
end

/-- Model of Python `str`: identity on strings, `repr` otherwise. -/
def pyStr : JsonVal → String
  | .str s => s
  | v => pyRepr v

/- ===== IEEE-754 binary64 model (exact, over ℚ) ===== -/

/-- Fuel-driven base-2 logarithm on ℕ (fuel `n` always suffices). -/
def log2fuel : ℕ → ℕ → ℕ
  | 0, _ => 0
  | fuel + 1, n => if 2 ≤ n then log2fuel fuel (n / 2) + 1 else 0

/-- `⌊log₂ n⌋` for `n ≥ 1` (0 otherwise). -/
def natLog2 (n : ℕ) : ℕ := log2fuel n n

/-- Fuel-driven ceiling base-2 logarithm on ℕ. -/
def clog2fuel : ℕ → ℕ → ℕ
  | 0, _ => 0
  | fuel + 1, n => if 2 ≤ n then clog2fuel fuel ((n + 1) / 2) + 1 else 0

/-- `⌈log₂ n⌉` for `n ≥ 1` (0 otherwise). -/
def natClog2 (n : ℕ) : ℕ := clog2fuel n n

/-- `2 ^ e` in ℚ for an integer exponent. -/
def pow2z (e : ℤ) : ℚ :=
  if 0 ≤ e then ((2 : ℚ) ^ e.toNat) else ((2 : ℚ) ^ (-e).toNat)⁻¹

/-- Round a rational to the nearest integer, ties to even. -/
def roundHalfEvenInt (q : ℚ) : ℤ :=
  if q - (⌊q⌋ : ℚ) < 1 / 2 then ⌊q⌋
  else if (1 : ℚ) / 2 < q - (⌊q⌋ : ℚ) then ⌊q⌋ + 1
  else if ⌊q⌋ % 2 = 0 then ⌊q⌋ else ⌊q⌋ + 1

/-- Binade exponent of a nonzero rational: the `e` with `2^e ≤ |q| < 2^(e+1)`. -/
def dblExp (q : ℚ) : ℤ :=
  if 1 ≤ |q| then (natLog2 ⌊|q|⌋.toNat : ℤ)
  else -(natClog2 ⌈|q|⁻¹⌉.toNat : ℤ)

/-- Round a rational to the nearest IEEE-754 binary64 value (ties to even).
Exact for the normal range; overflow and subnormals are not modelled, which
covers every value the verified code computes. -/
def toDouble (q : ℚ) : ℚ :=
  if q = 0 then 0
  else (roundHalfEvenInt (q / pow2z (dblExp q - 52)) : ℚ) * pow2z (dblExp q - 52)

/-- Correctly rounded product of two binary64 values. -/
def doubleMul (a b : ℚ) : ℚ := toDouble (a * b)

/-- Python `round(x, n)` on a float: correctly rounded to `n` decimal digits
of the exact binary value, ties to even, result converted back to binary64. -/
def pyRound (x : ℚ) (n : ℕ) : ℚ :=
  toDouble ((roundHalfEvenInt (x * 10 ^ n) : ℚ) / 10 ^ n)

/-- Simplified model of Python `float(str)` for plain decimal numerals
(signs and a decimal point; exponent forms are out of scope for the claims). -/
def parseFloat? (s : String) : Option ℚ :=
  let t := s.trim
  let sgn : ℚ := if t.startsWith "-" then -1 else 1
  let u := if t.startsWith "-" ∨ t.startsWith "+" then t.drop 1 else t
  match u.splitOn "." with
  | [a] =>
    if a ≠ "" ∧ a.all Char.isDigit then (a.toNat?).map (fun n => sgn * (n : ℚ))
    else none
  | [a, b] =>
    if (a ++ b) ≠ "" ∧ (a ++ b).all Char.isDigit then
      ((a ++ b).toNat?).map (fun n => sgn * (n : ℚ) / 10 ^ b.length)
    else none
  | _ => none

/-- Python `float(v)` on a JSON-decoded value: ok with the converted double,
or an exception message. -/
def pyFloat (v : JsonVal) : Except String ℚ :=
  match v with
  | .num q => .ok q
  | .bool b => .ok (if b then 1 else 0)
  | .str s =>
    match parseFloat? s with
    | some q => .ok (toDouble q)
    | none => .error ("could not convert string to float: " ++ s)
  | .null => .error "float argument must be a string or a real number, not NoneType"
  | .arr _ => .error "float argument must be a string or a real number, not list"
  | .obj _ => .error "float argument must be a string or a real number, not dict"

/- ===== Prediction services ===== -/

/-- An in-memory regression model: one feature row to one predicted float.
The loaded-or-not module state of each service is passed explicitly as
`Option Model` (None = load failed at startup). -/
def Model := List ℚ → ℚ

namespace ApiBtc

/-- `GET /health` of src/api_btc.py (lines 25-27): a constant body,
independent of the module-level model state. -/
def health (_model : Option Model) : JsonVal :=
  .obj [("status", .str "Random Forest is ready")]

/-- `GET /predict/bitcoin` of src/api_btc.py (lines 29-55). With a loaded
model, one inference call; otherwise the fallback `high * 1.015`; the
result is rounded to 2 decimals. -/
def predict_bitcoin (model : Option Model)
    (open_ high low close volume marketCap price_diff daily_range SMA_7 : ℚ) :
    JsonVal :=
  let features : List ℚ :=
    [open_, high, low, close, volume, marketCap, price_diff, daily_range, SMA_7]
  let prediction : ℚ :=
    match model with
    | some m => toDouble (m features)
    | none => doubleMul high (toDouble 1.015)
  .obj [("predicted_next_day_high", .num (pyRound prediction 2)),
        ("currency", .str "Bitcoin (BTC)"),
        ("model", .str "Random Forest")]

end ApiBtc

namespace ApiXrp

/-- `GET /health` of src/api_xrp.py (lines 30-35). -/
def health (model : Option Model) : JsonVal :=
  .obj [("status",
          .str (if model.isSome then "Ridge Regressor is ready" else "Model not loaded")),
        ("model_loaded", .bool model.isSome)]

/-- The fixed server-side feature row of src/api_xrp.py (lines 44-54). -/
def latest_data : List ℚ :=
  [0.5, 0.52, 0.49, 0.51, 1000000, 25000000000, 0.03, 0.03, 0.505]

/-- `GET /predict_latest` of src/api_xrp.py (lines 37-60). With the model
missing it returns an error object, not a fallback value. -/
def predict_latest (model : Option Model) : JsonVal :=
  match model with
  | none => .obj [("error", .str "Model not loaded")]
  | some m => .obj [("high", .str (pyStr (.num (toDouble (m latest_data)))))]

end ApiXrp

namespace ApiSolana

/-- `GET /health` of src/api_solana.py (lines 196-204). -/
def health (model : Option Model) (model_exists : Bool) : JsonVal :=
  .obj [("status", .str "healthy"),
        ("model_loaded", .bool model.isSome),
        ("model_path", .str "models/solana_lightgbm_model.pkl"),
        ("model_exists", .bool model_exists)]

/-- `GET /predict` of src/api_solana.py (lines 105-158). Fallback formula
`high * 1.02`, result rounded to 4 decimals. -/
def predict_get (model : Option Model)
    (open_ high low close volume marketCap price_diff daily_range SMA_7 : ℚ) :
    JsonVal :=
  let features : List ℚ :=
    [open_, high, low, close, volume, marketCap, price_diff, daily_range, SMA_7]
  let prediction : ℚ :=
    match model with
    | some m => toDouble (m features)
    | none => doubleMul high (toDouble 1.02)
  let source : String :=
    match model with
    | some _ => "LightGBM Model"
    | none => "Fallback Estimation (Model not loaded)"
  .obj [("predicted_next_day_high", .num (pyRound prediction 4)),
        ("currency", .str "Solana (SOL)"),
        ("model", .str source),
        ("input_features",
          .obj [("open", .num open_), ("high", .num high), ("low", .num low),
                ("close", .num close), ("volume", .num volume),
                ("marketCap", .num marketCap), ("price_diff", .num price_diff),
                ("daily_range", .num daily_range), ("SMA_7", .num SMA_7)])]

end ApiSolana

/- ===== Dashboard (src/Streamlit_app.py) ===== -/

namespace StreamlitApp

/-- Outcome of one `requests.get` call, as seen by `predict`
(src/Streamlit_app.py lines 108-160). The url and payload only select which
request is made; the oracle abstracts the remote side. A `resp` with
`jsonBody = none` stands for a response whose body `.json()` fails to decode. -/
inductive Outcome where
  | resp (status : ℕ) (jsonBody : Option JsonVal)
  | timeout
  | connError
  | exc (msg : String)

/-- The exception classes the try-block of `predict` can raise. -/
inductive PyExc where
  | timeout
  | connError
  | other (msg : String)

/-- What one loop iteration of `predict` does: return a value, or
`continue` with the next attempt. -/
inductive AttemptRes where
  | ret (v : JsonVal)
  | cont

/-- The ordered alternate key names of src/Streamlit_app.py line 135. -/
def chainKeys : List String :=
  ["predicted_next_day_high_usd", "predicted_next_day_high", "prediction",
   "predicted_high", "next_day_high"]

/-- The `or`-chain of src/Streamlit_app.py line 135. -/
def chainVal (fields : List (String × JsonVal)) : JsonVal :=
  pyOr (jget fields "predicted_next_day_high_usd")
    (pyOr (jget fields "predicted_next_day_high")
      (pyOr (jget fields "prediction")
        (pyOr (jget fields "predicted_high") (jget fields "next_day_high"))))

/-- Substring test, modelling `pat in s` on Python strings. -/
def containsSub (s pat : String) : Bool := (s.splitOn pat).length != 1

/-- Membership of the string literal in a Python list
(every non-string element compares unequal to it). -/
def listHasErrorStr (xs : List JsonVal) : Bool :=
  xs.any fun v =>
    match v with
    | .str s => s == "error"
    | _ => false

/-- The try-block of `predict` for one attempt (src/Streamlit_app.py lines
113-146): either a `return`/`continue`, or a raised exception. The exception
messages raised by `in`, subscripting and `.get` on non-dict bodies stand in
for the corresponding CPython TypeError/AttributeError texts; no claim
depends on their wording. -/
def tryBody (o : Outcome) (coin_symbol : String) (attempt max_retries : ℕ) :
    Except PyExc AttemptRes :=
  match o with
  | .timeout => .error .timeout
  | .connError => .error .connError
  | .exc m => .error (.other m)
  | .resp status body =>
    if status = 200 then
      match body with
      | none => .error (.other "Expecting value: line 1 column 1 (char 0)")
      | some result =>
        match result with
        | .obj fields =>
          if hasKey fields "error" then
            if attempt < max_retries - 1 then .ok .cont
            else .ok (.ret (.str ("API Error: " ++ pyStr (jget fields "error"))))
          else
            let chainPart : Except PyExc AttemptRes :=
              let prediction := chainVal fields
              if isNull prediction then .ok (.ret (.str (pyStr (.obj fields))))
              else .ok (.ret prediction)
            if coin_symbol = "XRP" then
              let high_value :=
                pyOr (jget fields "high") (jget fields "predicted_high_next")
              if truthy high_value then
                match pyFloat high_value with
                | .ok q => .ok (.ret (.num q))
                | .error m => .error (.other m)
              else chainPart
            else chainPart
        | .str s =>
          if containsSub s "error" then
            .error (.other "string indices must be integers")
          else .error (.other "str object has no attribute get")
        | .arr xs =>
          if listHasErrorStr xs then
            .error (.other "list indices must be integers or slices, not str")
          else .error (.other "list object has no attribute get")
        | _ => .error (.other "argument of type is not iterable")
    else if status = 429 then
      if attempt < max_retries - 1 then .ok .cont
      else .ok (.ret (.str "API busy, please try again"))
    else .ok (.ret (.str ("API Error: " ++ toString status)))

/-- The except-clauses of `predict` (src/Streamlit_app.py lines 147-158). -/
def handleExc (e : PyExc) (attempt max_retries : ℕ) : AttemptRes :=
  match e with
  | .timeout => if attempt < max_retries - 1 then .cont else .ret (.str "Request Timeout")
  | .connError => if attempt < max_retries - 1 then .cont else .ret (.str "Connection Error")
  | .other m => .ret (.str ("Error: " ++ m))

/-- `max_retries = 1` (src/Streamlit_app.py line 109). -/
def max_retries : ℕ := 1

/-- The `for attempt in range(max_retries)` loop. The oracle gives the
outcome of the request made on each attempt; the second component counts the
requests actually issued. Falling off the loop returns the final string of
line 160. -/
def predictGo (oracle : ℕ → Outcome) (coin_symbol : String) :
    ℕ → ℕ → JsonVal × ℕ
  | _, 0 => (.str "Failed after retries", 0)
  | attempt, rem + 1 =>
    let step :=
      match tryBody (oracle attempt) coin_symbol attempt max_retries with
      | .ok s => s
      | .error e => handleExc e attempt max_retries
    match step with
    | .ret v => (v, 1)
    | .cont =>
      let rest := predictGo oracle coin_symbol (attempt + 1) rem
      (rest.1, rest.2 + 1)

/-- `predict(api_url, payload, coin_symbol)`: the returned value. -/
def predict (oracle : ℕ → Outcome) (coin_symbol : String) : JsonVal :=
  (predictGo oracle coin_symbol 0 max_retries).1

/-- Number of HTTP requests `predict` issues against the given oracle. -/
def predictAttempts (oracle : ℕ → Outcome) (coin_symbol : String) : ℕ :=
  (predictGo oracle coin_symbol 0 max_retries).2

/-- An oracle answering every attempt with the same outcome. -/
def oracleOf (o : Outcome) : ℕ → Outcome := fun _ => o

/- ===== Candle aggregation (src/Streamlit_app.py lines 40-75) ===== -/

/-- One sample of the market-chart response: the calendar day computed by
`datetime.fromtimestamp(ts / 1000).date()` and the price. -/
structure PricePoint where
  date : ℤ
  price : ℚ

/-- One aggregated day (`open` is a Lean keyword, hence `open_`). -/
structure DailyCandle where
  date : ℤ
  open_ : ℚ
  high : ℚ
  low : ℚ
  close : ℚ
deriving DecidableEq

/-- Python `max(prices)`; total with junk value 0 on the empty list, which
the aggregation never produces. -/
def listMax : List ℚ → ℚ
  | [] => 0
  | x :: xs => xs.foldl max x

/-- Python `min(prices)`. -/
def listMin : List ℚ → ℚ
  | [] => 0
  | x :: xs => xs.foldl min x

/-- The per-day OHLC record of src/Streamlit_app.py lines 65-71. -/
def mkCandle (d : ℤ) (ps : List ℚ) : DailyCandle :=
  ⟨d, ps.headD 0, listMax ps, listMin ps, ps.getLastD 0⟩

/-- Appending one sample to the date-keyed grouping dict
(src/Streamlit_app.py lines 58-60); insertion order is preserved. -/
def addPoint (acc : List (ℤ × List ℚ)) (p : PricePoint) : List (ℤ × List ℚ) :=
  match acc with
  | [] => [(p.date, [p.price])]
  | (d, ps) :: rest =>
    if d = p.date then (d, ps ++ [p.price]) :: rest
    else (d, ps) :: addPoint rest p

/-- The grouping dict after all samples. -/
def groupByDate (pts : List PricePoint) : List (ℤ × List ℚ) :=
  pts.foldl addPoint []

/-- Insertion step of sorting the dict items by date. -/
def insertByDate (x : ℤ × List ℚ) : List (ℤ × List ℚ) → List (ℤ × List ℚ)
  | [] => [x]
  | y :: ys => if x.1 ≤ y.1 then x :: y :: ys else y :: insertByDate x ys

/-- `sorted(daily_data.items())`: the keys are pairwise distinct, so the
sort orders by date. -/
def sortByDate (l : List (ℤ × List ℚ)) : List (ℤ × List ℚ) :=
  l.foldr insertByDate []

/-- The daily OHLC list (src/Streamlit_app.py lines 62-71). -/
def dailyOHLC (pts : List PricePoint) : List DailyCandle :=
  (sortByDate (groupByDate pts)).map fun g => mkCandle g.1 g.2

/-- `get_coin_history`: none models the null returned for an empty/missing
prices array (line 46); otherwise the last 7 aggregated days (line 73). -/
def get_coin_history (pts : List PricePoint) : Option (List DailyCandle) :=
  if pts.isEmpty then none
  else some ((dailyOHLC pts).drop ((dailyOHLC pts).length - 7))

/- ===== Predict-button cache policy (src/Streamlit_app.py lines 284-298) ===== -/

/-- First binding of a key in an association list (a Python dict). -/
def alookup {α : Type} : List (String × α) → String → Option α
  | [], _ => none
  | (k, v) :: rest, key => if k = key then some v else alookup rest key

/-- Dict assignment: overwrite in place or append. -/
def aset {α : Type} : List (String × α) → String → α → List (String × α)
  | [], key, v => [(key, v)]
  | (k, w) :: rest, key, v =>
    if k = key then (k, v) :: rest else (k, w) :: aset rest key v

/-- The dashboard session state relevant to the predict button. -/
structure DashState where
  predictions : List (String × JsonVal)
  prediction_time : List (String × ℚ)

/-- The predict-button handler: suppresses the call when the cached entry
for the symbol exists and its timestamp is younger than 180 seconds,
otherwise calls `predict` (whose result is `fresh`) and stores result and
timestamp. The boolean records whether a new call was issued. -/
def handlePredictBtn (s : DashState) (symbol : String) (now : ℚ)
    (fresh : JsonVal) : DashState × Bool :=
  let last_time : ℚ := (alookup s.prediction_time symbol).getD 0
  if now - last_time < 180 ∧ (alookup s.predictions symbol).isSome then
    (s, false)
  else
    (⟨aset s.predictions symbol fresh, aset s.prediction_time symbol now⟩, true)

end StreamlitApp

/- ===== Theorems ===== -/

/-- A truthy value is not None. -/
theorem isNull_eq_false_of_truthy {v : JsonVal} (h : truthy v = true) :
    isNull v = false := by
  cases v <;> simp_all [truthy, isNull]

/-- A value other than None is not null. -/
theorem isNull_eq_false_of_ne_null {v : JsonVal} (h : v ≠ .null) :
    isNull v = false := by
  cases v <;> simp_all [isNull]

/-- `or` keeps null-or-numeric values null-or-numeric. -/
theorem pyOr_nullOrNum {a b : JsonVal} (ha : isNullOrNum a = true)
    (hb : isNullOrNum b = true) : isNullOrNum (pyOr a b) = true := by
  unfold pyOr
  split <;> assumption

/-- Evaluation of `roundHalfEvenInt` when the fractional part is below 1/2. -/
theorem roundHalfEvenInt_eval_down (q : ℚ) (m : ℤ) (hfl : ⌊q⌋ = m)
    (hr : q - (m : ℚ) < 1 / 2) : roundHalfEvenInt q = m := by
  unfold roundHalfEvenInt
  rw [hfl, if_pos hr]

/-- Evaluation of `toDouble` on a value of integer part `n ≥ 1`. -/
theorem toDouble_eval (q : ℚ) (n k : ℕ) (m : ℤ)
    (h1 : 1 ≤ q)
    (hfl : ⌊q⌋ = (n : ℤ))
    (hlog : natLog2 n = k)
    (hk : k < 52)
    (hm : roundHalfEvenInt (q * 2 ^ (52 - k)) = m) :
    toDouble q = (m : ℚ) / 2 ^ (52 - k) := by
  have h0 : (0 : ℚ) < q := lt_of_lt_of_le one_pos h1
  have habs : |q| = q := abs_of_pos h0
  have he : dblExp q = (k : ℤ) := by
    unfold dblExp
    rw [habs, if_pos h1, hfl]
    simp [hlog]
  have hp : pow2z ((k : ℤ) - 52) = ((2 : ℚ) ^ (52 - k))⁻¹ := by
    unfold pow2z
    rw [if_neg (by omega)]
    congr 1
    congr 1
    omega
  unfold toDouble
  rw [if_neg (ne_of_gt h0), he, hp, div_eq_mul_inv, inv_inv, hm, ← div_eq_mul_inv]

/-- The double nearest to the literal `1.015`. -/
theorem eval_toDouble_1015 :
    toDouble 1.015 = 4571153621781053 / 2 ^ 52 := by
  apply toDouble_eval 1.015 1 0 4571153621781053 (by norm_num) (by norm_num) rfl
    (by norm_num)
  apply roundHalfEvenInt_eval_down
  · norm_num
  · norm_num

/-- The double product `105 * 1.015`: just below `106.575`. -/
theorem eval_prod_105_1015 :
    doubleMul 105 (toDouble 1.015) = 7499548910734540 / 2 ^ 46 := by
  unfold doubleMul
  rw [eval_toDouble_1015]
  rw [show (105 : ℚ) * (4571153621781053 / 2 ^ 52) = 479971130287010565 / 2 ^ 52 by
    norm_num]
  apply toDouble_eval _ 106 6 _ (by norm_num) (by norm_num) rfl (by norm_num)
  apply roundHalfEvenInt_eval_down
  · norm_num
  · norm_num

/-- Rounding the product to two decimals yields the double `106.57`. -/
theorem eval_pyRound_prod :
    pyRound (7499548910734540 / 2 ^ 46) 2 = toDouble (10657 / 100) := by
  unfold pyRound
  rw [show roundHalfEvenInt ((7499548910734540 / 2 ^ 46 : ℚ) * 10 ^ 2) = 10657 by
    apply roundHalfEvenInt_eval_down <;> norm_num]
  norm_num

/-- The double nearest to `106.57`. -/
theorem eval_toDouble_10657 :
    toDouble (10657 / 100) = 7499197067013652 / 2 ^ 46 := by
  apply toDouble_eval _ 106 6 _ (by norm_num) (by norm_num) rfl (by norm_num)
  apply roundHalfEvenInt_eval_down
  · norm_num
  · norm_num

/-- The double nearest to `106.58`. -/
theorem eval_toDouble_10658 :
    toDouble (10658 / 100) = 7499900754455429 / 2 ^ 46 := by
  apply toDouble_eval _ 106 6 _ (by norm_num) (by norm_num) rfl (by norm_num)
  apply roundHalfEvenInt_eval_down
  · norm_num
  · norm_num

/-- C1 counterexample: with the model missing, the XRP service's
`predict_latest` returns the error object — no `high` value, no numeric
fallback — refuting the claim that every service falls back to
`high * constant`. -/
theorem c1_counterexample :
    ApiXrp.predict_latest none = .obj [("error", .str "Model not loaded")] ∧
    getField (ApiXrp.predict_latest none) "high" = .null ∧
    isNum (getField (ApiXrp.predict_latest none) "predicted_next_day_high") = false :=
  ⟨rfl, rfl, rfl⟩

/-- C1 (amended): with the model missing, the Bitcoin service answers the
fallback `round(high * 1.015, 2)` and the Solana service
`round(high * 1.02, 4)`, neither with an error key; the XRP service's
`predict_latest` instead returns `error: Model not loaded`. -/
theorem c1_amended : ∀ (o h l c v mc pd dr s7 : ℚ),
    getField (ApiBtc.predict_bitcoin none o h l c v mc pd dr s7)
        "predicted_next_day_high" = .num (pyRound (doubleMul h (toDouble 1.015)) 2) ∧
    getField (ApiBtc.predict_bitcoin none o h l c v mc pd dr s7) "error" = .null ∧
    getField (ApiSolana.predict_get none o h l c v mc pd dr s7)
        "predicted_next_day_high" = .num (pyRound (doubleMul h (toDouble 1.02)) 4) ∧
    getField (ApiSolana.predict_get none o h l c v mc pd dr s7) "error" = .null ∧
    ApiXrp.predict_latest none = .obj [("error", .str "Model not loaded")] := by
  intro o h l c v mc pd dr s7
  exact ⟨rfl, rfl, rfl, rfl, rfl⟩

/-- C4 counterexample: the Bitcoin fallback on the documented feature vector
does not return 106.58 — neither the exact decimal nor its nearest double. -/
theorem c4_counterexample :
    getField (ApiBtc.predict_bitcoin none 100 105 95 102 3000000 1000000000 5 10 101)
        "predicted_next_day_high" ≠ .num (10658 / 100) ∧
    getField (ApiBtc.predict_bitcoin none 100 105 95 102 3000000 1000000000 5 10 101)
        "predicted_next_day_high" ≠ .num (toDouble (10658 / 100)) := by
  have hv : getField
      (ApiBtc.predict_bitcoin none 100 105 95 102 3000000 1000000000 5 10 101)
      "predicted_next_day_high" = .num (7499197067013652 / 2 ^ 46) := by
    show JsonVal.num (pyRound (doubleMul 105 (toDouble 1.015)) 2) = _
    rw [eval_prod_105_1015, eval_pyRound_prod, eval_toDouble_10657]
  constructor
  · rw [hv]
    intro hh
    rw [JsonVal.num.injEq] at hh
    norm_num at hh
  · rw [hv, eval_toDouble_10658]
    intro hh
    rw [JsonVal.num.injEq] at hh
    norm_num at hh

/-- C4 (amended): on the documented feature vector the Bitcoin fallback
returns the double nearest 106.57, because the binary64 product
`105 * 1.015` is slightly below 106.575 and `round(_, 2)` rounds it down. -/
theorem c4_amended :
    getField (ApiBtc.predict_bitcoin none 100 105 95 102 3000000 1000000000 5 10 101)
        "predicted_next_day_high" = .num (toDouble (10657 / 100)) := by
  show JsonVal.num (pyRound (doubleMul 105 (toDouble 1.015)) 2) = _
  rw [eval_prod_105_1015, eval_pyRound_prod]

/-- C5 counterexample: the Bitcoin health endpoint answers identically with
and without a loaded model, so its response does not distinguish the two
states. -/
theorem c5_counterexample :
    ApiBtc.health none = ApiBtc.health (some (fun _ => 0)) := rfl

/-- C5 (amended): the XRP and Solana health endpoints report whether the
model is loaded; the Bitcoin health endpoint returns a constant body
independent of the model state. -/
theorem c5_amended :
    (∀ m m' : Option Model, ApiBtc.health m = ApiBtc.health m') ∧
    (∀ m : Option Model, getField (ApiXrp.health m) "model_loaded" = .bool m.isSome) ∧
    (∀ (m : Option Model) (ex : Bool),
      getField (ApiSolana.health m ex) "model_loaded" = .bool m.isSome) :=
  ⟨fun _ _ => rfl, fun _ => rfl, fun _ _ => rfl⟩

/-- C3 counterexample: against an oracle that raises a connection error on
every attempt, `predict` issues exactly one request — not two — before
returning the connection-error string (`max_retries = 1` makes the loop
body run once and the retry branch unreachable). -/
theorem c3_counterexample :
    StreamlitApp.predict (StreamlitApp.oracleOf .connError) "BTC"
        = .str "Connection Error" ∧
    StreamlitApp.predictAttempts (StreamlitApp.oracleOf .connError) "BTC" = 1 ∧
    StreamlitApp.predictAttempts (StreamlitApp.oracleOf .connError) "BTC" ≠ 2 :=
  ⟨rfl, rfl, by decide⟩

/-- C3 (amended): when every attempt raises a connection error, `predict`
performs exactly one attempt (no retry) and returns "Connection Error". -/
theorem c3_amended : ∀ (oracle : ℕ → StreamlitApp.Outcome) (sym : String),
    (∀ i, oracle i = .connError) →
    StreamlitApp.predict oracle sym = .str "Connection Error" ∧
    StreamlitApp.predictAttempts oracle sym = 1 := by
  intro oracle sym h
  have h0 := h 0
  constructor <;>
    simp [StreamlitApp.predict, StreamlitApp.predictAttempts,
      StreamlitApp.predictGo, StreamlitApp.max_retries, h0,
      StreamlitApp.tryBody, StreamlitApp.handleExc]

/-- C3 witness: the amended statement at a concrete always-failing oracle. -/
theorem c3_witness :
    StreamlitApp.predict (StreamlitApp.oracleOf .connError) "SOL"
        = .str "Connection Error" ∧
    StreamlitApp.predictAttempts (StreamlitApp.oracleOf .connError) "SOL" = 1 :=
  c3_amended (StreamlitApp.oracleOf .connError) "SOL" (fun _ => rfl)

/-- C10: a 200 JSON object containing the key `error` always yields the
"API Error: ..." string, never a number, whatever else the object holds. -/
theorem c10_theorem : ∀ (fields : List (String × JsonVal)) (sym : String),
    hasKey fields "error" = true →
    StreamlitApp.predict
        (StreamlitApp.oracleOf (.resp 200 (some (.obj fields)))) sym
      = .str ("API Error: " ++ pyStr (jget fields "error")) ∧
    isNum (StreamlitApp.predict
        (StreamlitApp.oracleOf (.resp 200 (some (.obj fields)))) sym) = false := by
  intro fields sym h
  have hv : StreamlitApp.predict
      (StreamlitApp.oracleOf (.resp 200 (some (.obj fields)))) sym
      = .str ("API Error: " ++ pyStr (jget fields "error")) := by
    simp [StreamlitApp.predict, StreamlitApp.predictGo, StreamlitApp.max_retries,
      StreamlitApp.oracleOf, StreamlitApp.tryBody, h]
  exact ⟨hv, by rw [hv]; rfl⟩

/-- C10 witness: a body holding both an error key and a prediction key
still produces the error string. -/
theorem c10_witness :
    StreamlitApp.predict
        (StreamlitApp.oracleOf
          (.resp 200 (some (.obj [("error", .str "boom"), ("prediction", .num 5)]))))
        "BTC" = .str "API Error: boom" ∧
    isNum (StreamlitApp.predict
        (StreamlitApp.oracleOf
          (.resp 200 (some (.obj [("error", .str "boom"), ("prediction", .num 5)]))))
        "BTC") = false :=
  c10_theorem [("error", .str "boom"), ("prediction", .num 5)] "BTC" rfl

/-- C2 counterexample: with `predicted_next_day_high_usd` present and equal
to 0 (non-null) and `prediction` equal to 5, `predict` returns 5, not the
first present non-null value 0 — the `or`-chain skips falsy values. -/
theorem c2_counterexample :
    StreamlitApp.predict
        (StreamlitApp.oracleOf (.resp 200 (some (.obj
          [("predicted_next_day_high_usd", .num 0), ("prediction", .num 5)]))))
        "BTC" = .num 5 ∧
    jget [("predicted_next_day_high_usd", .num 0), ("prediction", .num 5)]
        "predicted_next_day_high_usd" = .num 0 ∧
    JsonVal.num 5 ≠ JsonVal.num 0 := by
  refine ⟨rfl, rfl, ?_⟩
  intro hh
  rw [JsonVal.num.injEq] at hh
  norm_num at hh

/-- C2 (amended): for a 200 JSON object without an error key, and outside
the XRP pre-step, `predict` returns the value of the first key in priority
order whose value is truthy (skipping present falsy values such as 0); when
no key value is truthy it returns the value of `next_day_high` when that is
present non-null (necessarily falsy, e.g. 0), and the stringified response
exactly when additionally `next_day_high` is absent or null — so a present
non-null falsy value under an earlier key does not prevent stringification.
The two parts cover every input, making the case split exhaustive. -/
theorem c2_amended :
    (∀ (sym : String) (fields : List (String × JsonVal)) (k : String)
        (pre post : List String),
      sym ≠ "XRP" →
      hasKey fields "error" = false →
      StreamlitApp.chainKeys = pre ++ k :: post →
      truthy (jget fields k) = true →
      (∀ k' ∈ pre, truthy (jget fields k') = false) →
      StreamlitApp.predict
          (StreamlitApp.oracleOf (.resp 200 (some (.obj fields)))) sym
        = jget fields k) ∧
    (∀ (sym : String) (fields : List (String × JsonVal)),
      sym ≠ "XRP" →
      hasKey fields "error" = false →
      (∀ k ∈ StreamlitApp.chainKeys, truthy (jget fields k) = false) →
      (jget fields "next_day_high" = .null →
        StreamlitApp.predict
            (StreamlitApp.oracleOf (.resp 200 (some (.obj fields)))) sym
          = .str (pyStr (.obj fields))) ∧
      (jget fields "next_day_high" ≠ .null →
        StreamlitApp.predict
            (StreamlitApp.oracleOf (.resp 200 (some (.obj fields)))) sym
          = jget fields "next_day_high")) := by
  refine ⟨?_, ?_⟩
  · intro sym fields k pre post hsym herr hdec htr hpre
    have hnull := isNull_eq_false_of_truthy htr
    rcases pre with _ | ⟨a1, pre⟩
    · simp only [StreamlitApp.chainKeys] at hdec
      obtain ⟨hk, -⟩ := List.cons_eq_cons.mp hdec
      subst hk
      simp [StreamlitApp.predict, StreamlitApp.predictGo, StreamlitApp.max_retries,
        StreamlitApp.oracleOf, StreamlitApp.tryBody, StreamlitApp.chainVal, pyOr,
        herr, hsym, htr, hnull]
    · rcases pre with _ | ⟨a2, pre⟩
      · simp only [StreamlitApp.chainKeys] at hdec
        obtain ⟨ha1, hd1⟩ := List.cons_eq_cons.mp hdec
        obtain ⟨hk, -⟩ := List.cons_eq_cons.mp hd1
        subst ha1
        subst hk
        have f1 := hpre "predicted_next_day_high_usd" (by simp)
        simp [StreamlitApp.predict, StreamlitApp.predictGo, StreamlitApp.max_retries,
          StreamlitApp.oracleOf, StreamlitApp.tryBody, StreamlitApp.chainVal, pyOr,
          herr, hsym, htr, hnull, f1]
      · rcases pre with _ | ⟨a3, pre⟩
        · simp only [StreamlitApp.chainKeys] at hdec
          obtain ⟨ha1, hd1⟩ := List.cons_eq_cons.mp hdec
          obtain ⟨ha2, hd2⟩ := List.cons_eq_cons.mp hd1
          obtain ⟨hk, -⟩ := List.cons_eq_cons.mp hd2
          subst ha1
          subst ha2
          subst hk
          have f1 := hpre "predicted_next_day_high_usd" (by simp)
          have f2 := hpre "predicted_next_day_high" (by simp)
          simp [StreamlitApp.predict, StreamlitApp.predictGo, StreamlitApp.max_retries,
            StreamlitApp.oracleOf, StreamlitApp.tryBody, StreamlitApp.chainVal, pyOr,
            herr, hsym, htr, hnull, f1, f2]
        · rcases pre with _ | ⟨a4, pre⟩
          · simp only [StreamlitApp.chainKeys] at hdec
            obtain ⟨ha1, hd1⟩ := List.cons_eq_cons.mp hdec
            obtain ⟨ha2, hd2⟩ := List.cons_eq_cons.mp hd1
            obtain ⟨ha3, hd3⟩ := List.cons_eq_cons.mp hd2
            obtain ⟨hk, -⟩ := List.cons_eq_cons.mp hd3
            subst ha1
            subst ha2
            subst ha3
            subst hk
            have f1 := hpre "predicted_next_day_high_usd" (by simp)
            have f2 := hpre "predicted_next_day_high" (by simp)
            have f3 := hpre "prediction" (by simp)
            simp [StreamlitApp.predict, StreamlitApp.predictGo, StreamlitApp.max_retries,
              StreamlitApp.oracleOf, StreamlitApp.tryBody, StreamlitApp.chainVal, pyOr,
              herr, hsym, htr, hnull, f1, f2, f3]
          · rcases pre with _ | ⟨a5, pre⟩
            · simp only [StreamlitApp.chainKeys] at hdec
              obtain ⟨ha1, hd1⟩ := List.cons_eq_cons.mp hdec
              obtain ⟨ha2, hd2⟩ := List.cons_eq_cons.mp hd1
              obtain ⟨ha3, hd3⟩ := List.cons_eq_cons.mp hd2
              obtain ⟨ha4, hd4⟩ := List.cons_eq_cons.mp hd3
              obtain ⟨hk, -⟩ := List.cons_eq_cons.mp hd4
              subst ha1
              subst ha2
              subst ha3
              subst ha4
              subst hk
              have f1 := hpre "predicted_next_day_high_usd" (by simp)
              have f2 := hpre "predicted_next_day_high" (by simp)
              have f3 := hpre "prediction" (by simp)
              have f4 := hpre "predicted_high" (by simp)
              simp [StreamlitApp.predict, StreamlitApp.predictGo, StreamlitApp.max_retries,
                StreamlitApp.oracleOf, StreamlitApp.tryBody, StreamlitApp.chainVal, pyOr,
                herr, hsym, htr, hnull, f1, f2, f3, f4]
            · simp only [StreamlitApp.chainKeys] at hdec
              obtain ⟨-, hd1⟩ := List.cons_eq_cons.mp hdec
              obtain ⟨-, hd2⟩ := List.cons_eq_cons.mp hd1
              obtain ⟨-, hd3⟩ := List.cons_eq_cons.mp hd2
              obtain ⟨-, hd4⟩ := List.cons_eq_cons.mp hd3
              obtain ⟨-, hd5⟩ := List.cons_eq_cons.mp hd4
              simp at hd5
  · intro sym fields hsym herr hall
    have f1 := hall "predicted_next_day_high_usd" (by simp [StreamlitApp.chainKeys])
    have f2 := hall "predicted_next_day_high" (by simp [StreamlitApp.chainKeys])
    have f3 := hall "prediction" (by simp [StreamlitApp.chainKeys])
    have f4 := hall "predicted_high" (by simp [StreamlitApp.chainKeys])
    constructor
    · intro hn
      simp [StreamlitApp.predict, StreamlitApp.predictGo, StreamlitApp.max_retries,
        StreamlitApp.oracleOf, StreamlitApp.tryBody, StreamlitApp.chainVal, pyOr,
        herr, hsym, f1, f2, f3, f4, hn, isNull]
    · intro hn
      have hnn := isNull_eq_false_of_ne_null hn
      simp [StreamlitApp.predict, StreamlitApp.predictGo, StreamlitApp.max_retries,
        StreamlitApp.oracleOf, StreamlitApp.tryBody, StreamlitApp.chainVal, pyOr,
        herr, hsym, f1, f2, f3, f4, hnn]

/-- C2 witness: `prediction = 0` is skipped and `predicted_high = 7` (the
first truthy value) is returned; a lone `prediction = 0` stringifies the
response even though a non-null value is present; and `next_day_high = 0`
is returned when no value is truthy. -/
theorem c2_witness :
    StreamlitApp.predict
        (StreamlitApp.oracleOf (.resp 200 (some (.obj
          [("prediction", .num 0), ("predicted_high", .num 7)]))))
        "BTC" = .num 7 ∧
    StreamlitApp.predict
        (StreamlitApp.oracleOf (.resp 200 (some (.obj
          [("prediction", .num 0)]))))
        "BTC" = .str (pyStr (.obj [("prediction", .num 0)])) ∧
    StreamlitApp.predict
        (StreamlitApp.oracleOf (.resp 200 (some (.obj
          [("prediction", .num 0), ("next_day_high", .num 0)]))))
        "BTC" = .num 0 := by
  refine ⟨?_, ?_, ?_⟩
  · exact c2_amended.1 "BTC"
      [("prediction", .num 0), ("predicted_high", .num 7)] "predicted_high"
      ["predicted_next_day_high_usd", "predicted_next_day_high", "prediction"]
      ["next_day_high"]
      (by decide) rfl rfl (by decide) (by decide)
  · exact (c2_amended.2 "BTC" [("prediction", .num 0)]
      (by decide) rfl (by decide)).1 rfl
  · exact (c2_amended.2 "BTC" [("prediction", .num 0), ("next_day_high", .num 0)]
      (by decide) rfl (by decide)).2
      (fun hcontra => JsonVal.noConfusion hcontra)

/-- C6 counterexample: a 200 JSON object whose `prediction` value is a list
makes `predict` return that raw list — neither a number nor a string
(though still without raising). -/
theorem c6_counterexample :
    StreamlitApp.predict
        (StreamlitApp.oracleOf (.resp 200 (some (.obj
          [("prediction", .arr [.num 1])])))) "BTC" = .arr [.num 1] ∧
    isNumOrStr (.arr [.num 1]) = false :=
  ⟨rfl, rfl⟩

/-- C6 (amended): `predict` never raises — every outcome produces a value —
and that value is a number or a string whenever the values stored under the
five alternate prediction keys of a 200 JSON-object body are numbers or
absent/null; a non-numeric truthy value under one of those keys is returned
as-is. -/
theorem c6_amended : ∀ (oracle : ℕ → StreamlitApp.Outcome) (sym : String),
    (∀ fields, oracle 0 = .resp 200 (some (.obj fields)) →
      ∀ k ∈ StreamlitApp.chainKeys, isNullOrNum (jget fields k) = true) →
    isNumOrStr (StreamlitApp.predict oracle sym) = true := by
  intro oracle sym hgood
  cases ho : oracle 0 with
  | timeout =>
    simp [StreamlitApp.predict, StreamlitApp.predictGo, StreamlitApp.max_retries,
      ho, StreamlitApp.tryBody, StreamlitApp.handleExc, isNumOrStr, isNull]
  | connError =>
    simp [StreamlitApp.predict, StreamlitApp.predictGo, StreamlitApp.max_retries,
      ho, StreamlitApp.tryBody, StreamlitApp.handleExc, isNumOrStr, isNull]
  | exc m =>
    simp [StreamlitApp.predict, StreamlitApp.predictGo, StreamlitApp.max_retries,
      ho, StreamlitApp.tryBody, StreamlitApp.handleExc, isNumOrStr, isNull]
  | resp status body =>
    by_cases h200 : status = 200
    · subst h200
      cases body with
      | none =>
        simp [StreamlitApp.predict, StreamlitApp.predictGo, StreamlitApp.max_retries,
          ho, StreamlitApp.tryBody, StreamlitApp.handleExc, isNumOrStr, isNull]
      | some v =>
        cases v with
        | null =>
          simp [StreamlitApp.predict, StreamlitApp.predictGo, StreamlitApp.max_retries,
            ho, StreamlitApp.tryBody, StreamlitApp.handleExc, isNumOrStr, isNull]
        | num q =>
          simp [StreamlitApp.predict, StreamlitApp.predictGo, StreamlitApp.max_retries,
            ho, StreamlitApp.tryBody, StreamlitApp.handleExc, isNumOrStr, isNull]
        | bool b =>
          simp [StreamlitApp.predict, StreamlitApp.predictGo, StreamlitApp.max_retries,
            ho, StreamlitApp.tryBody, StreamlitApp.handleExc, isNumOrStr, isNull]
        | str s =>
          by_cases hc : StreamlitApp.containsSub s "error" <;>
            simp [StreamlitApp.predict, StreamlitApp.predictGo,
              StreamlitApp.max_retries, ho, StreamlitApp.tryBody,
              StreamlitApp.handleExc, isNumOrStr, isNull, hc]
        | arr xs =>
          by_cases hc : StreamlitApp.listHasErrorStr xs <;>
            simp [StreamlitApp.predict, StreamlitApp.predictGo,
              StreamlitApp.max_retries, ho, StreamlitApp.tryBody,
              StreamlitApp.handleExc, isNumOrStr, isNull, hc]
        | obj fields =>
          have hv := hgood fields ho
          have h1 := hv "predicted_next_day_high_usd" (by simp [StreamlitApp.chainKeys])
          have h2 := hv "predicted_next_day_high" (by simp [StreamlitApp.chainKeys])
          have h3 := hv "prediction" (by simp [StreamlitApp.chainKeys])
          have h4 := hv "predicted_high" (by simp [StreamlitApp.chainKeys])
          have h5 := hv "next_day_high" (by simp [StreamlitApp.chainKeys])
          have hchain : isNullOrNum (StreamlitApp.chainVal fields) = true := by
            unfold StreamlitApp.chainVal
            exact pyOr_nullOrNum h1 (pyOr_nullOrNum h2 (pyOr_nullOrNum h3
              (pyOr_nullOrNum h4 h5)))
          by_cases herr : hasKey fields "error"
          · simp [StreamlitApp.predict, StreamlitApp.predictGo,
              StreamlitApp.max_retries, ho, StreamlitApp.tryBody,
              StreamlitApp.handleExc, isNumOrStr, isNull, herr]
          · by_cases hx : sym = "XRP"
            · by_cases ht :
                truthy (pyOr (jget fields "high") (jget fields "predicted_high_next"))
              · cases hf :
                  pyFloat (pyOr (jget fields "high") (jget fields "predicted_high_next")) with
                | ok q =>
                  simp [StreamlitApp.predict, StreamlitApp.predictGo,
                    StreamlitApp.max_retries, ho, StreamlitApp.tryBody,
                    StreamlitApp.handleExc, isNumOrStr, isNull, herr, hx, ht, hf]
                | error m =>
                  simp [StreamlitApp.predict, StreamlitApp.predictGo,
                    StreamlitApp.max_retries, ho, StreamlitApp.tryBody,
                    StreamlitApp.handleExc, isNumOrStr, isNull, herr, hx, ht, hf]
              · cases hcv : StreamlitApp.chainVal fields with
                | null =>
                  simp [StreamlitApp.predict, StreamlitApp.predictGo,
                    StreamlitApp.max_retries, ho, StreamlitApp.tryBody,
                    StreamlitApp.handleExc, isNumOrStr, isNull, herr, hx, ht, hcv]
                | num q =>
                  simp [StreamlitApp.predict, StreamlitApp.predictGo,
                    StreamlitApp.max_retries, ho, StreamlitApp.tryBody,
                    StreamlitApp.handleExc, isNumOrStr, isNull, herr, hx, ht, hcv]
                | str s => rw [hcv] at hchain; simp [isNullOrNum] at hchain
                | bool b => rw [hcv] at hchain; simp [isNullOrNum] at hchain
                | arr xs => rw [hcv] at hchain; simp [isNullOrNum] at hchain
                | obj fs => rw [hcv] at hchain; simp [isNullOrNum] at hchain
            · cases hcv : StreamlitApp.chainVal fields with
              | null =>
                simp [StreamlitApp.predict, StreamlitApp.predictGo,
                  StreamlitApp.max_retries, ho, StreamlitApp.tryBody,
                  StreamlitApp.handleExc, isNumOrStr, isNull, herr, hx, hcv]
              | num q =>
                simp [StreamlitApp.predict, StreamlitApp.predictGo,
                  StreamlitApp.max_retries, ho, StreamlitApp.tryBody,
                  StreamlitApp.handleExc, isNumOrStr, isNull, herr, hx, hcv]
              | str s => rw [hcv] at hchain; simp [isNullOrNum] at hchain
              | bool b => rw [hcv] at hchain; simp [isNullOrNum] at hchain
              | arr xs => rw [hcv] at hchain; simp [isNullOrNum] at hchain
              | obj fs => rw [hcv] at hchain; simp [isNullOrNum] at hchain
    · by_cases h429 : status = 429 <;>
        simp [StreamlitApp.predict, StreamlitApp.predictGo, StreamlitApp.max_retries,
          ho, StreamlitApp.tryBody, StreamlitApp.handleExc, isNumOrStr, isNull, h200, h429]

/-- C6 witness: a well-formed numeric body yields a number-or-string result. -/
theorem c6_witness :
    isNumOrStr (StreamlitApp.predict
      (StreamlitApp.oracleOf (.resp 200 (some (.obj [("prediction", .num 5)]))))
      "BTC") = true := by
  apply c6_amended
  intro fields h
  have hf : fields = [("prediction", .num 5)] := by
    simpa [StreamlitApp.oracleOf] using h.symm
  subst hf
  decide

/-- C8: a cached prediction younger than 180 seconds suppresses the call and
leaves the state untouched; a call is issued only when the entry is absent
or its timestamp is at least 180 seconds old. -/
theorem c8_theorem :
    (∀ (s : StreamlitApp.DashState) (symbol : String) (now t : ℚ)
        (fresh : JsonVal),
      StreamlitApp.alookup s.prediction_time symbol = some t →
      now - t < 180 →
      (StreamlitApp.alookup s.predictions symbol).isSome = true →
      StreamlitApp.handlePredictBtn s symbol now fresh = (s, false)) ∧
    (∀ (s : StreamlitApp.DashState) (symbol : String) (now : ℚ)
        (fresh : JsonVal),
      (StreamlitApp.handlePredictBtn s symbol now fresh).2 = true →
      StreamlitApp.alookup s.predictions symbol = none ∨
        180 ≤ now - (StreamlitApp.alookup s.prediction_time symbol).getD 0) := by
  constructor
  · intro s symbol now t fresh hlt hage hmem
    unfold StreamlitApp.handlePredictBtn
    rw [hlt]
    rw [if_pos]
    exact ⟨hage, hmem⟩
  · intro s symbol now fresh hcall
    unfold StreamlitApp.handlePredictBtn at hcall
    by_cases hcond :
        now - (StreamlitApp.alookup s.prediction_time symbol).getD 0 < 180 ∧
          (StreamlitApp.alookup s.predictions symbol).isSome = true
    · rw [if_pos hcond] at hcall
      simp at hcall
    · rcases not_and_or.mp hcond with hage | hmem
      · right
        exact le_of_not_lt hage
      · left
        exact Option.not_isSome_iff_eq_none.mp (by simpa using hmem)

/-- C8 witness: a 100-second-old cached entry suppresses the call; with the
cache empty the handler issues the call. -/
theorem c8_witness :
    StreamlitApp.handlePredictBtn
        ⟨[("BTC", .num 5)], [("BTC", 100)]⟩ "BTC" 200 (.num 9)
      = (⟨[("BTC", .num 5)], [("BTC", 100)]⟩, false) ∧
    (StreamlitApp.alookup
        (⟨[("BTC", .num 5)], [("BTC", 100)]⟩ : StreamlitApp.DashState).predictions
        "ETH" = none ∨
      (180 : ℚ) ≤ 500 - (StreamlitApp.alookup
        (⟨[("BTC", .num 5)], [("BTC", 100)]⟩ : StreamlitApp.DashState).prediction_time
        "ETH").getD 0) :=
  ⟨c8_theorem.1 ⟨[("BTC", .num 5)], [("BTC", 100)]⟩ "BTC" 200 100 (.num 9)
      rfl (by norm_num) rfl,
    c8_theorem.2 ⟨[("BTC", .num 5)], [("BTC", 100)]⟩ "ETH" 500 (.num 9)
      (by simp [StreamlitApp.handlePredictBtn, StreamlitApp.alookup])⟩

/-- Lower bound propagation through a `max`-fold. -/
theorem le_foldl_max : ∀ (ys : List ℚ) (x a : ℚ),
    a ≤ x ∨ a ∈ ys → a ≤ ys.foldl max x := by
  intro ys
  induction ys with
  | nil =>
    intro x a h
    rcases h with h | h
    · exact h
    · simp at h
  | cons y ys ih =>
    intro x a h
    simp only [List.foldl_cons]
    apply ih
    rcases h with h | h
    · exact Or.inl (le_trans h (le_max_left x y))
    · rcases List.mem_cons.mp h with h | h
      · exact Or.inl (h ▸ le_max_right x y)
      · exact Or.inr h

/-- A `max`-fold lands on one of its inputs. -/
theorem foldl_max_mem : ∀ (ys : List ℚ) (x : ℚ), ys.foldl max x ∈ x :: ys := by
  intro ys
  induction ys with
  | nil => intro x; simp
  | cons y ys ih =>
    intro x
    simp only [List.foldl_cons]
    rcases List.mem_cons.mp (ih (max x y)) with h | h
    · rcases max_choice x y with hm | hm
      · rw [h, hm]; simp
      · rw [h, hm]; simp
    · exact List.mem_cons_of_mem _ (List.mem_cons_of_mem _ h)

/-- Upper bound propagation through a `min`-fold. -/
theorem foldl_min_le : ∀ (ys : List ℚ) (x a : ℚ),
    x ≤ a ∨ a ∈ ys → ys.foldl min x ≤ a := by
  intro ys
  induction ys with
  | nil =>
    intro x a h
    rcases h with h | h
    · exact h
    · simp at h
  | cons y ys ih =>
    intro x a h
    simp only [List.foldl_cons]
    apply ih
    rcases h with h | h
    · exact Or.inl (le_trans (min_le_left x y) h)
    · rcases List.mem_cons.mp h with h | h
      · exact Or.inl (h ▸ min_le_right x y)
      · exact Or.inr h

/-- A `min`-fold lands on one of its inputs. -/
theorem foldl_min_mem : ∀ (ys : List ℚ) (x : ℚ), ys.foldl min x ∈ x :: ys := by
  intro ys
  induction ys with
  | nil => intro x; simp
  | cons y ys ih =>
    intro x
    simp only [List.foldl_cons]
    rcases List.mem_cons.mp (ih (min x y)) with h | h
    · rcases min_choice x y with hm | hm
      · rw [h, hm]; simp
      · rw [h, hm]; simp
    · exact List.mem_cons_of_mem _ (List.mem_cons_of_mem _ h)

/-- `listMax` is the maximum of a nonempty list. -/
theorem listMax_spec (ps : List ℚ) (h : ps ≠ []) :
    StreamlitApp.listMax ps ∈ ps ∧ ∀ a ∈ ps, a ≤ StreamlitApp.listMax ps := by
  cases ps with
  | nil => exact absurd rfl h
  | cons x t =>
    constructor
    · exact foldl_max_mem t x
    · intro a ha
      apply le_foldl_max
      rcases List.mem_cons.mp ha with h1 | h1
      · exact Or.inl (le_of_eq h1)
      · exact Or.inr h1

/-- `listMin` is the minimum of a nonempty list. -/
theorem listMin_spec (ps : List ℚ) (h : ps ≠ []) :
    StreamlitApp.listMin ps ∈ ps ∧ ∀ a ∈ ps, StreamlitApp.listMin ps ≤ a := by
  cases ps with
  | nil => exact absurd rfl h
  | cons x t =>
    constructor
    · exact foldl_min_mem t x
    · intro a ha
      apply foldl_min_le
      rcases List.mem_cons.mp ha with h1 | h1
      · exact Or.inl (le_of_eq h1.symm)
      · exact Or.inr h1

/-- The default-headed head of a nonempty list is a member. -/
theorem headD_mem (ps : List ℚ) (h : ps ≠ []) : ps.headD 0 ∈ ps := by
  cases ps with
  | nil => exact absurd rfl h
  | cons x t => simp

/-- On a nonempty list `getLastD` agrees with `getLast`. -/
theorem getLastD_eq_getLast : ∀ (t : List ℚ) (x d : ℚ),
    (x :: t).getLastD d = (x :: t).getLast (List.cons_ne_nil x t) := by
  intro t
  induction t with
  | nil => intro x d; rfl
  | cons y t ih =>
    intro x d
    rw [show (x :: y :: t).getLastD d = (y :: t).getLastD x from rfl]
    rw [ih y x]
    rw [List.getLast_cons (List.cons_ne_nil y t)]

/-- The default-footed last of a nonempty list is a member. -/
theorem getLastD_mem (ps : List ℚ) (h : ps ≠ []) : ps.getLastD 0 ∈ ps := by
  cases ps with
  | nil => exact absurd rfl h
  | cons x t =>
    rw [getLastD_eq_getLast t x 0]
    exact List.getLast_mem _

/-- Folding same-day samples into a one-entry grouping dict. -/
theorem foldl_addPoint_same (d : ℤ) : ∀ (ps qs : List ℚ),
    List.foldl StreamlitApp.addPoint [(d, qs)] (ps.map fun p => ⟨d, p⟩)
      = [(d, qs ++ ps)] := by
  intro ps
  induction ps with
  | nil => intro qs; simp
  | cons x t ih =>
    intro qs
    simp only [List.map_cons, List.foldl_cons]
    rw [show StreamlitApp.addPoint [(d, qs)] ⟨d, x⟩ = [(d, qs ++ [x])] by
      simp [StreamlitApp.addPoint]]
    rw [ih (qs ++ [x])]
    simp

/-- Grouping same-day samples gives a single group carrying them in order. -/
theorem groupByDate_same (d : ℤ) (x : ℚ) (t : List ℚ) :
    StreamlitApp.groupByDate ((x :: t).map fun p => ⟨d, p⟩) = [(d, x :: t)] := by
  simp only [StreamlitApp.groupByDate, List.map_cons, List.foldl_cons]
  rw [show StreamlitApp.addPoint [] ⟨d, x⟩ = [(d, [x])] from rfl]
  rw [foldl_addPoint_same d t [x]]
  simp

/-- Every key of `addPoint acc p` is the new date or one of the old keys. -/
theorem addPoint_fst_mem : ∀ (acc : List (ℤ × List ℚ))
    (p : StreamlitApp.PricePoint) (x : ℤ × List ℚ),
    x ∈ StreamlitApp.addPoint acc p → x.1 = p.date ∨ x.1 ∈ acc.map Prod.fst := by
  intro acc
  induction acc with
  | nil =>
    intro p x hx
    simp [StreamlitApp.addPoint] at hx
    exact Or.inl (by rw [hx])
  | cons hd rest ih =>
    intro p x hx
    obtain ⟨dd, pps⟩ := hd
    simp only [StreamlitApp.addPoint] at hx
    split at hx
    · rcases List.mem_cons.mp hx with h1 | h1
      · next heq => exact Or.inl (by rw [h1]; exact heq)
      · exact Or.inr (by
          simp only [List.map_cons]
          exact List.mem_cons_of_mem _ (List.mem_map_of_mem Prod.fst h1))
    · rcases List.mem_cons.mp hx with h1 | h1
      · exact Or.inr (by rw [h1]; simp)
      · rcases ih p x h1 with h2 | h2
        · exact Or.inl h2
        · exact Or.inr (by
            simp only [List.map_cons]
            exact List.mem_cons_of_mem _ h2)

/-- `addPoint` keeps the group keys pairwise distinct. -/
theorem addPoint_pairwise : ∀ (acc : List (ℤ × List ℚ))
    (p : StreamlitApp.PricePoint),
    acc.Pairwise (fun a b => a.1 ≠ b.1) →
    (StreamlitApp.addPoint acc p).Pairwise (fun a b => a.1 ≠ b.1) := by
  intro acc
  induction acc with
  | nil => intro p _; simp [StreamlitApp.addPoint]
  | cons hd rest ih =>
    intro p h
    obtain ⟨dd, pps⟩ := hd
    rcases List.pairwise_cons.mp h with ⟨hhd, hrest⟩
    simp only [StreamlitApp.addPoint]
    split
    · exact List.pairwise_cons.mpr ⟨fun b hb => hhd b hb, hrest⟩
    · next hne =>
      refine List.pairwise_cons.mpr ⟨?_, ih p hrest⟩
      intro b hb
      rcases addPoint_fst_mem rest p b hb with h1 | h1
      · rw [h1]
        exact hne
      · obtain ⟨c, hc, hcc⟩ := List.mem_map.mp h1
        exact hcc ▸ hhd c hc

/-- The grouping dict has pairwise distinct date keys. -/
theorem groupByDate_pairwise (pts : List StreamlitApp.PricePoint) :
    (StreamlitApp.groupByDate pts).Pairwise (fun a b => a.1 ≠ b.1) := by
  have aux : ∀ (l : List StreamlitApp.PricePoint) (acc : List (ℤ × List ℚ)),
      acc.Pairwise (fun a b => a.1 ≠ b.1) →
      (l.foldl StreamlitApp.addPoint acc).Pairwise (fun a b => a.1 ≠ b.1) := by
    intro l
    induction l with
    | nil => intro acc h; simpa using h
    | cons q l ih =>
      intro acc h
      simp only [List.foldl_cons]
      exact ih _ (addPoint_pairwise acc q h)
  exact aux pts [] (by simp)

/-- `addPoint` keeps every group nonempty. -/
theorem addPoint_snd_ne_nil : ∀ (acc : List (ℤ × List ℚ))
    (p : StreamlitApp.PricePoint),
    (∀ x ∈ acc, x.2 ≠ []) → ∀ x ∈ StreamlitApp.addPoint acc p, x.2 ≠ [] := by
  intro acc
  induction acc with
  | nil =>
    intro p _ x hx
    simp [StreamlitApp.addPoint] at hx
    rw [hx]
    simp
  | cons hd rest ih =>
    intro p h x hx
    obtain ⟨dd, pps⟩ := hd
    simp only [StreamlitApp.addPoint] at hx
    split at hx
    · rcases List.mem_cons.mp hx with h1 | h1
      · rw [h1]
        simp
      · exact h x (List.mem_cons_of_mem _ h1)
    · rcases List.mem_cons.mp hx with h1 | h1
      · exact h x (h1 ▸ List.mem_cons_self _ _)
      · exact ih p (fun y hy => h y (List.mem_cons_of_mem _ hy)) x h1

/-- Every group produced by `groupByDate` is nonempty. -/
theorem groupByDate_snd_ne_nil (pts : List StreamlitApp.PricePoint) :
    ∀ x ∈ StreamlitApp.groupByDate pts, x.2 ≠ [] := by
  have aux : ∀ (l : List StreamlitApp.PricePoint) (acc : List (ℤ × List ℚ)),
      (∀ x ∈ acc, x.2 ≠ []) →
      ∀ x ∈ l.foldl StreamlitApp.addPoint acc, x.2 ≠ [] := by
    intro l
    induction l with
    | nil => intro acc h; simpa using h
    | cons q l ih =>
      intro acc h
      simp only [List.foldl_cons]
      exact ih _ (addPoint_snd_ne_nil acc q h)
  exact aux pts [] (by simp)

/-- Inserting is a permutation of consing. -/
theorem insertByDate_perm : ∀ (l : List (ℤ × List ℚ)) (x : ℤ × List ℚ),
    List.Perm (StreamlitApp.insertByDate x l) (x :: l) := by
  intro l
  induction l with
  | nil => intro x; exact List.Perm.refl _
  | cons y ys ih =>
    intro x
    simp only [StreamlitApp.insertByDate]
    split
    · exact List.Perm.refl _
    · exact List.Perm.trans (List.Perm.cons y (ih x)) (List.Perm.swap x y ys)

/-- The sort permutes the grouping dict. -/
theorem sortByDate_perm : ∀ (l : List (ℤ × List ℚ)),
    List.Perm (StreamlitApp.sortByDate l) l := by
  intro l
  induction l with
  | nil => exact List.Perm.refl _
  | cons y ys ih =>
    simp only [StreamlitApp.sortByDate, List.foldr_cons]
    exact List.Perm.trans (insertByDate_perm _ y) (List.Perm.cons y ih)

/-- Inserting preserves sortedness by date. -/
theorem insertByDate_sorted : ∀ (l : List (ℤ × List ℚ)) (x : ℤ × List ℚ),
    l.Pairwise (fun a b => a.1 ≤ b.1) →
    (StreamlitApp.insertByDate x l).Pairwise (fun a b => a.1 ≤ b.1) := by
  intro l
  induction l with
  | nil => intro x _; simp [StreamlitApp.insertByDate]
  | cons y ys ih =>
    intro x h
    rcases List.pairwise_cons.mp h with ⟨hy, hys⟩
    simp only [StreamlitApp.insertByDate]
    split
    · next hle =>
      refine List.pairwise_cons.mpr ⟨?_, h⟩
      intro b hb
      rcases List.mem_cons.mp hb with hb | hb
      · rw [hb]
        exact hle
      · exact le_trans hle (hy b hb)
    · next hgt =>
      have hyx : y.1 ≤ x.1 := le_of_not_le hgt
      refine List.pairwise_cons.mpr ⟨?_, ih x hys⟩
      intro b hb
      rcases List.mem_cons.mp ((insertByDate_perm ys x).mem_iff.mp hb) with hb | hb
      · rw [hb]
        exact hyx
      · exact hy b hb

/-- The sorted grouping dict is sorted by date. -/
theorem sortByDate_sorted : ∀ (l : List (ℤ × List ℚ)),
    (StreamlitApp.sortByDate l).Pairwise (fun a b => a.1 ≤ b.1) := by
  intro l
  induction l with
  | nil => simp [StreamlitApp.sortByDate]
  | cons y ys ih =>
    simp only [StreamlitApp.sortByDate, List.foldr_cons]
    exact insertByDate_sorted _ y ih

/-- C7: aggregating the same-day samples of one calendar day produces one
candle whose open is the first sample, close the last, high the maximum and
low the minimum over all samples of the day. -/
theorem c7_theorem : ∀ (d : ℤ) (ps : List ℚ) (h : ps ≠ []),
    StreamlitApp.get_coin_history (ps.map fun p => ⟨d, p⟩)
      = some [StreamlitApp.mkCandle d ps] ∧
    (StreamlitApp.mkCandle d ps).open_ = ps.head h ∧
    (StreamlitApp.mkCandle d ps).close = ps.getLast h ∧
    (StreamlitApp.mkCandle d ps).high ∈ ps ∧
    (∀ x ∈ ps, x ≤ (StreamlitApp.mkCandle d ps).high) ∧
    (StreamlitApp.mkCandle d ps).low ∈ ps ∧
    (∀ x ∈ ps, (StreamlitApp.mkCandle d ps).low ≤ x) := by
  intro d ps h
  cases ps with
  | nil => exact absurd rfl h
  | cons x t =>
    refine ⟨?_, rfl, ?_, ?_, ?_, ?_, ?_⟩
    · unfold StreamlitApp.get_coin_history
      rw [if_neg (by simp)]
      unfold StreamlitApp.dailyOHLC
      rw [groupByDate_same d x t]
      simp [StreamlitApp.sortByDate, StreamlitApp.insertByDate]
    · exact getLastD_eq_getLast t x 0
    · exact (listMax_spec (x :: t) (List.cons_ne_nil x t)).1
    · exact (listMax_spec (x :: t) (List.cons_ne_nil x t)).2
    · exact (listMin_spec (x :: t) (List.cons_ne_nil x t)).1
    · exact (listMin_spec (x :: t) (List.cons_ne_nil x t)).2

/-- C7 witness: the day with samples [10, 15, 12] aggregates to
open 10, high 15, low 10, close 12. -/
theorem c7_witness :
    StreamlitApp.get_coin_history (([10, 15, 12] : List ℚ).map fun p => ⟨0, p⟩)
      = some [StreamlitApp.mkCandle 0 [10, 15, 12]] ∧
    (StreamlitApp.mkCandle 0 [10, 15, 12]).open_ = 10 ∧
    (StreamlitApp.mkCandle 0 [10, 15, 12]).high = 15 ∧
    (StreamlitApp.mkCandle 0 [10, 15, 12]).low = 10 ∧
    (StreamlitApp.mkCandle 0 [10, 15, 12]).close = 12 := by
  have h := c7_theorem 0 [10, 15, 12] (by simp)
  exact ⟨h.1, rfl, rfl, rfl, rfl⟩

/-- C9: every non-null `get_coin_history` result has at most 7 entries,
strictly ascending dates, and OHLC bounds low ≤ open ≤ high and
low ≤ close ≤ high on every entry. -/
theorem c9_theorem : ∀ (pts : List StreamlitApp.PricePoint)
    (l : List StreamlitApp.DailyCandle),
    StreamlitApp.get_coin_history pts = some l →
    l.length ≤ 7 ∧
    l.Pairwise (fun c c' => c.date < c'.date) ∧
    ∀ c ∈ l, c.low ≤ c.open_ ∧ c.open_ ≤ c.high ∧
      c.low ≤ c.close ∧ c.close ≤ c.high := by
  intro pts l h
  unfold StreamlitApp.get_coin_history at h
  split at h
  · exact Option.noConfusion h
  · rw [Option.some.injEq] at h
    subst h
    refine ⟨?_, ?_, ?_⟩
    · rw [List.length_drop]
      omega
    · apply List.Pairwise.sublist (List.drop_sublist _ _)
      unfold StreamlitApp.dailyOHLC
      rw [List.pairwise_map]
      have hs := sortByDate_sorted (StreamlitApp.groupByDate pts)
      have hne : (StreamlitApp.sortByDate (StreamlitApp.groupByDate pts)).Pairwise
          (fun a b => a.1 ≠ b.1) :=
        ((sortByDate_perm _).pairwise_iff (fun hab => Ne.symm hab)).mpr
          (groupByDate_pairwise pts)
      refine (hs.and hne).imp ?_
      intro a b hab
      exact lt_of_le_of_ne hab.1 hab.2
    · intro c hc
      have hc1 : c ∈ StreamlitApp.dailyOHLC pts := (List.drop_sublist _ _).subset hc
      unfold StreamlitApp.dailyOHLC at hc1
      obtain ⟨g, hg, rfl⟩ := List.mem_map.mp hc1
      have hgrp : g ∈ StreamlitApp.groupByDate pts := (sortByDate_perm _).subset hg
      have hnil : g.2 ≠ [] := groupByDate_snd_ne_nil pts g hgrp
      have hmax := listMax_spec g.2 hnil
      have hmin := listMin_spec g.2 hnil
      have hhd := headD_mem g.2 hnil
      have hlast := getLastD_mem g.2 hnil
      exact ⟨hmin.2 _ hhd, hmax.2 _ hhd, hmin.2 _ hlast, hmax.2 _ hlast⟩

/-- C9 witness: two days of samples evaluate to two date-ascending candles
with valid OHLC bounds. -/
theorem c9_witness :
    ([⟨0, 10, 15, 10, 15⟩, ⟨1, 12, 12, 12, 12⟩] :
        List StreamlitApp.DailyCandle).length ≤ 7 ∧
    ([⟨0, 10, 15, 10, 15⟩, ⟨1, 12, 12, 12, 12⟩] :
        List StreamlitApp.DailyCandle).Pairwise (fun c c' => c.date < c'.date) ∧
    ∀ c ∈ ([⟨0, 10, 15, 10, 15⟩, ⟨1, 12, 12, 12, 12⟩] :
        List StreamlitApp.DailyCandle),
      c.low ≤ c.open_ ∧ c.open_ ≤ c.high ∧ c.low ≤ c.close ∧ c.close ≤ c.high :=
  c9_theorem [⟨0, 10⟩, ⟨0, 15⟩, ⟨1, 12⟩] _ rfl
